import Mathlib

/-!
Verification of the Schema Resolution Engine of a TypeScript-typedef
generator for Storyblok component schemas.

The definitions below are a shallow embedding of
`src/utils/typescript/generateTypesFromJSONSchema.ts` (class
`GenerateTypesFromJSONSchemas`).  JavaScript objects and `Map`s are
modelled as insertion-ordered association lists, `Set`s as duplicate-free
insertion-ordered lists, and the two external collaborators (the
`json-schema-to-typescript` `compile` function and the optional custom
field-type resolver) as explicit function parameters.  The lodash string
helpers `camelCase` and `startCase` are modelled for ASCII input.
-/

namespace Storyblok

/-- ASCII word characters, as recognised by lodash's word splitter. -/
def isWordChar (c : Char) : Bool := c.isAlphanum

/-- Word boundary inside an alphanumeric run, following lodash's camel-hump
and letter/digit splitting: a break falls between a lowercase and an
uppercase letter, between a letter and a digit (either order), and before
the last uppercase letter of an uppercase run that is followed by a
lowercase letter. -/
def wordBreak (p c : Char) (n : Option Char) : Bool :=
  (p.isLower && c.isUpper) ||
  (p.isAlpha && c.isDigit) ||
  (p.isDigit && c.isAlpha) ||
  (p.isUpper && c.isUpper && ((n.map Char.isLower).getD false))

/-- Split one alphanumeric run at the camel-hump / letter-digit boundaries.
`p` is the previous character, `acc` the current word reversed. -/
def splitCamelAux : List Char → Char → List Char → List (List Char)
  | [], _, acc => [acc.reverse]
  | c :: rest, p, acc =>
    if wordBreak p c rest.head? then
      acc.reverse :: splitCamelAux rest c [c]
    else
      splitCamelAux rest c (c :: acc)

/-- Split one alphanumeric run into lodash-style words. -/
def splitCamel : List Char → List (List Char)
  | [] => []
  | c :: rest => splitCamelAux rest c [c]

/-- Maximal runs of alphanumeric characters (separators are dropped). -/
def alnumRunsAux : List Char → List Char → List (List Char)
  | [], acc => if acc.isEmpty then [] else [acc.reverse]
  | c :: rest, acc =>
    if isWordChar c then alnumRunsAux rest (c :: acc)
    else if acc.isEmpty then alnumRunsAux rest []
    else acc.reverse :: alnumRunsAux rest []

/-- lodash `words` for ASCII strings: split into alphanumeric runs, then
split each run at camel-hump and letter/digit boundaries. -/
def lodashWords (s : String) : List String :=
  (((alnumRunsAux s.data []).map splitCamel).flatten).map (fun l => String.mk l)

/-- Lowercase every character of a string. -/
def lowerStr (s : String) : String := String.mk (s.data.map Char.toLower)

/-- lodash `upperFirst`: uppercase the first character only. -/
def upperFirst (s : String) : String :=
  match s.data with
  | [] => ""
  | c :: cs => String.mk (c.toUpper :: cs)

/-- lodash `capitalize`: lowercase the word, then uppercase its first
character. -/
def capitalizeWord (s : String) : String := upperFirst (lowerStr s)

/-- lodash `camelCase`: first word lowercased, every later word
capitalized, all concatenated. -/
def camelCase (s : String) : String :=
  match lodashWords s with
  | [] => ""
  | w :: ws => lowerStr w ++ String.join (ws.map capitalizeWord)

/-- lodash `startCase`: every word `upperFirst`ed, joined by single
spaces. -/
def startCase (s : String) : String :=
  String.intercalate " " ((lodashWords s).map upperFirst)

/-- The `.replace(/ /g, "")` step of `#getBlokTypeName`: drop every space
character. -/
def removeSpaces (s : String) : String :=
  String.mk (s.data.filter (fun c => !(c == ' ')))

/-- The options relevant to the Schema Resolution Engine
(`GenerateTSTypedefsFromComponentsJSONSchemasOptions`): the optional type
name prefix (source field `typeNamesPrefix`) and the optional type name
suffix (source field `typeNamesSuffix`). -/
structure GenOptions where
  typeNamesPfx : Option String := none
  typeNamesSuffix : Option String := none
deriving DecidableEq

/-- JavaScript template-literal interpolation of a possibly `undefined`
string: `undefined` prints as the literal text `"undefined"`. -/
def undefinedStr : Option String → String
  | some s => s
  | none => "undefined"

/-- `#getBlokTypeName`: the type name formatter.  The source computes
`startCase(camelCase(prefixOrEmpty ++ blokName ++ suffix)).replace(/ /g, "")`
where the prefix is defaulted with `?? ""` but the suffix is interpolated
directly, so a missing suffix becomes the literal text `"undefined"`. -/
def getBlokTypeName (opts : GenOptions) (blokName : String) : String :=
  removeSpaces (startCase (camelCase
    ((opts.typeNamesPfx.getD "") ++ blokName ++ undefinedStr opts.typeNamesSuffix)))

/-- `#STORY_DATATYPE_NAME`. -/
def STORY_DATATYPE_NAME : String := "ISbStoryData"

/-- `#getStoryType`: wrap a content-type name in the story data type. -/
def getStoryType (opts : GenOptions) (storyBlokName : String) : String :=
  STORY_DATATYPE_NAME ++ "<" ++ getBlokTypeName opts storyBlokName ++ ">"

/-- One entry of a field descriptor's `options` list
(`ISbBlokPropertySchemaOption`); only `value` is read by the engine. -/
structure SchemaOption where
  value : String
deriving DecidableEq

/-- A field descriptor (`ISbBlokPropertySchema`), together with the two
link-permission flags and the `required` flag the implementation reads on
the raw object.  Absent JS booleans are collapsed to `false` (the code
only tests truthiness), absent lists to `none`. -/
structure ISbBlokPropertySchema where
  type : String
  pos : Nat := 0
  key : String := ""
  use_uuid : Bool := false
  required : Bool := false
  source : Option String := none
  options : List SchemaOption := []
  filter_content_type : Option (List String) := none
  restrict_components : Bool := false
  component_whitelist : Option (List String) := none
  component_group_whitelist : Option (List String) := none
  restrict_type : Option String := none
  exclude_empty_option : Bool := false
  email_link_type : Bool := false
  asset_link_type : Bool := false
deriving DecidableEq

/-- One component JSON Schema: its `name`, its optional
`component_group_uuid`, and the ordered field map `schema`. -/
structure ComponentJSONSchema where
  name : String
  component_group_uuid : Option String := none
  schema : List (String × ISbBlokPropertySchema) := []
deriving DecidableEq

/-- The JSON Schema `type` annotation, which in the source is either one
string or a list of strings. -/
inductive JType where
  | one : String → JType
  | many : List String → JType
deriving DecidableEq

/-- The `items` object of an array-typed JSON Schema property. -/
structure ItemsSpec where
  type : Option JType := none
  enum : Option (List String) := none
deriving DecidableEq

/-- A resolved property type specification
(`BlokSchemaPropertyTypeAnnotation` in the source, plus the `tsType`
override the mapper writes on it). -/
structure PropTypeSpec where
  type : Option JType := none
  enum : Option (List String) := none
  items : Option ItemsSpec := none
  tsType : Option String := none
deriving DecidableEq

/-- The list of shared kinds, i.e. the keys of
`#getAutogeneratedTypeSchema` in insertion order
(`#autogeneratedPropertyTypes`). -/
def autogeneratedPropertyTypes : List String :=
  ["asset", "multiasset", "multilink", "richtext", "table"]

/-- JS `String.prototype.startsWith`, modelled over character lists. -/
def strStartsWith (s pre : String) : Bool :=
  pre.data.isPrefixOf s.data

/-- Lookup in a JS object / `Map` modelled as an association list. -/
def jsObjGet {α : Type} (o : List (String × α)) (k : String) : Option α :=
  (o.find? (fun p => p.1 == k)).map Prod.snd

/-- JS object property assignment / `Map.set`: overwrite the existing
entry in place, otherwise append a new entry. -/
def jsObjSet {α : Type} : List (String × α) → String → α → List (String × α)
  | [], k, v => [(k, v)]
  | (k2, v2) :: rest, k, v =>
    if k2 == k then (k, v) :: rest else (k2, v2) :: jsObjSet rest k v

/-- JS `Set.add`: append the element unless already present. -/
def jsSetAdd (s : List String) (x : String) : List String :=
  if s.contains x then s else s ++ [x]

/-- `ComponentGroupsAndNamesObject`: the group index plus the set of all
component names. -/
structure GroupsAndNames where
  componentGroups : List (String × List String) := []
  componentNames : List String := []
deriving DecidableEq

/-- One step of the group index builder's `reduce`: a schema with a
`component_group_uuid` adds its name to that group's set (creating the
set if absent), and every schema's name is added unconditionally to the
all-names set. -/
def groupIndexStep (acc : GroupsAndNames) (c : ComponentJSONSchema) : GroupsAndNames :=
  let componentGroups :=
    match c.component_group_uuid with
    | some g =>
      jsObjSet acc.componentGroups g
        (match jsObjGet acc.componentGroups g with
         | some s => jsSetAdd s c.name
         | none => [c.name])
    | none => acc.componentGroups
  { componentGroups := componentGroups,
    componentNames := jsSetAdd acc.componentNames c.name }

/-- `#generateComponentGroupsAndComponentNamesFromJSONSchemas`: one pass
over the component schemas. -/
def generateComponentGroupsAndComponentNames (cs : List ComponentJSONSchema) : GroupsAndNames :=
  cs.foldl groupIndexStep {}

/-- The tail of `#parseBlokSchemaProperty` after the autogenerated-kind
and `internal_stories` early returns: the fallback scalar classification,
the `option` / `options` branches, and the final `switch` on the kind. -/
def parseBlokSchemaPropertyRest (p : ISbBlokPropertySchema) (options : List String) : PropTypeSpec :=
  let type1 : JType :=
    if (options.length > 0 && p.source == none) ||
       p.source == some "internal_languages" || p.source == some "external" then
      JType.one "string"
    else JType.one "any"
  let type2 : JType :=
    if p.source == some "internal" then JType.many ["number", "string"] else type1
  if p.type == "option" then
    if options.length > 0 then { type := some type2, enum := some options }
    else { type := some type2 }
  else if p.type == "options" then
    if options.length > 0 then
      { type := some (JType.one "array"), items := some { enum := some options } }
    else
      { type := some (JType.one "array"), items := some { type := some type2 } }
  else if p.type == "bloks" then { type := some (JType.one "array") }
  else if p.type == "boolean" then { type := some (JType.one "boolean") }
  else if p.type == "datetime" || p.type == "image" || p.type == "markdown" ||
          p.type == "number" || p.type == "text" || p.type == "textarea" then
    { type := some (JType.one "string") }
  else { type := some (JType.one "any") }

/-- `#parseBlokSchemaProperty`: autogenerated kinds keep their kind as the
JSON Schema type; the option values are collected (with a leading empty
option unless excluded); `internal_stories` with a present
`filter_content_type` (JS truthiness: a present-but-empty array also
passes) returns the story-union `tsType`; everything else falls through
to `parseBlokSchemaPropertyRest`. -/
def parseBlokSchemaProperty (opts : GenOptions) (p : ISbBlokPropertySchema) : PropTypeSpec :=
  if autogeneratedPropertyTypes.contains p.type then
    { type := some (JType.one p.type) }
  else
    let options0 := if p.options.length > 0 then p.options.map (fun item => item.value) else []
    let options := if options0.length > 0 && !p.exclude_empty_option then "" :: options0 else options0
    if p.source == some "internal_stories" then
      match p.filter_content_type with
      | some l =>
        { tsType := some ("(" ++ String.intercalate " | " (l.map (getStoryType opts)) ++
            " | string )" ++ (if p.type == "options" then "[]" else "")) }
      | none => parseBlokSchemaPropertyRest p options
    else parseBlokSchemaPropertyRest p options

/-- The `{ linktype?: "email" }` exclusion shape pushed for multilink
fields without an explicit `email_link_type`. -/
def emailLinkShape : String := "\x7b linktype?: \"email\" \x7d"

/-- The `{ linktype?: "asset" }` exclusion shape pushed for multilink
fields without an explicit `asset_link_type`. -/
def assetLinkShape : String := "\x7b linktype?: \"asset\" \x7d"

/-- The group-whitelist reduction inside `#typeMapper`'s bloks branch:
for every whitelisted group id found in the group index, append the
formatted names of its member components. -/
def currentGroupElements (opts : GenOptions) (groups : List (String × List String)) (wl : List String) : List String :=
  wl.foldl (fun bloks groupUUID =>
    match jsObjGet groups groupUUID with
    | some bloksInGroup => bloks ++ bloksInGroup.map (getBlokTypeName opts)
    | none => bloks) []

/-- The value part of one `#typeMapper` iteration for a non-custom field:
the parsed property, with the `tsType` overrides of the autogenerated,
`multilink` and `bloks` branches applied in source order.  (The value
written into `parseObj` does not depend on the mutable run state.) -/
def fieldSpec (opts : GenOptions) (groups : List (String × List String)) (names : List String) (el : ISbBlokPropertySchema) : PropTypeSpec :=
  let element := parseBlokSchemaProperty opts el
  let element :=
    if autogeneratedPropertyTypes.contains el.type then
      { element with tsType := some (getBlokTypeName opts el.type) }
    else element
  let element :=
    if el.type == "multilink" then
      let baseType := getBlokTypeName opts el.type
      let excludedLinktypes :=
        (if !el.email_link_type then [emailLinkShape] else []) ++
        (if !el.asset_link_type then [assetLinkShape] else [])
      { element with
        tsType := some (if excludedLinktypes.length > 0 then
            "Exclude<" ++ baseType ++ ", " ++ String.intercalate " | " excludedLinktypes ++ ">"
          else baseType) }
    else element
  let element :=
    if el.type == "bloks" then
      if el.restrict_components then
        if el.restrict_type == some "groups" then
          match el.component_group_whitelist with
          | some wl =>
            if wl.length > 0 then
              { element with
                tsType := some (if (currentGroupElements opts groups wl).length > 0 then
                    "(" ++ String.intercalate " | " (currentGroupElements opts groups wl) ++ ")[]"
                  else "never[]") }
            else element
          | none => element
        else
          match el.component_whitelist with
          | some wl =>
            if wl.length > 0 then
              { element with
                tsType := some ("(" ++ String.intercalate " | " (wl.map (getBlokTypeName opts)) ++ ")[]") }
            else element
          | none => element
      else
        { element with
          tsType := some ("(" ++ String.intercalate " | " (names.map (getBlokTypeName opts)) ++ ")[]") }
    else element
  element

/-- The composite JSON Schema handed to the external compiler for one
component (`obj` in `generateTSFile`). -/
structure ComponentCompileInput where
  id : String
  title : String
  typeKind : String
  required : List String
  properties : List (String × PropTypeSpec)
deriving DecidableEq

/-- The external `json-schema-to-typescript` `compile` calls, as an
oracle.  `compileShared k title` — Modelled from the spec: the
composition of the autogenerated schema getters (module
`autogeneratedStoryblokTypes`, not among the analysed sources; the spec
assigns each shared kind a fixed reusable schema parameterised by its
title) with the external type compiler, returning the rendered definition
text or the thrown compilation error.  `compileComponent` is the compile
call on a component's composite specification together with its name
argument. -/
structure TypeCompiler where
  compileShared : String → String → Except String String
  compileComponent : ComponentCompileInput → String → Except String String

/-- An optional custom field-type resolver (`CustomTypeParser`): given a
field key and its raw descriptor it returns a specification fragment to
merge into the owning component's field mapping. -/
def CustomTypeResolver : Type :=
  String → ISbBlokPropertySchema → List (String × PropTypeSpec)

/-- The mutable per-run state: the shared-type registry
(`#hasTypeBeenGenerated`), the output buffer (`#typeDefsFileStrings`) and
the console log entries (each `console.log` / `console.error` call,
recorded as its pair of arguments). -/
structure GenState where
  hasTypeBeenGenerated : List (String × Bool)
  typeDefsFileStrings : List String
  consoleLog : List (String × String)
deriving DecidableEq

/-- `Map.get` on the registry with JS truthiness: a missing entry is
`undefined`, hence falsy. -/
def flagGet (fl : List (String × Bool)) (k : String) : Bool :=
  (jsObjGet fl k).getD false

/-- The import header the output buffer starts with. -/
def importHeader : String :=
  "import type \x7b " ++ STORY_DATATYPE_NAME ++ " \x7d from \"storyblok\";"

/-- The run state at construction time: all five registry entries false,
the buffer holding only the import header, nothing logged. -/
def initialState : GenState :=
  { hasTypeBeenGenerated :=
      [("asset", false), ("multiasset", false), ("multilink", false),
       ("richtext", false), ("table", false)],
    typeDefsFileStrings := [importHeader],
    consoleLog := [] }

/-- `#generateTypeString`: compile the shared schema; on success mark the
kind emitted and return the rendered text, on failure the thrown error
propagates (the registry is not touched). -/
def generateTypeString (tc : TypeCompiler) (k title : String) (st : GenState) : Except String (String × GenState) :=
  match tc.compileShared k title with
  | .ok typeString =>
    .ok (typeString, { st with hasTypeBeenGenerated := jsObjSet st.hasTypeBeenGenerated k true })
  | .error e => .error e

/-- `#generateAutogeneratedType`: fetch the shared schema (defined exactly
for the five shared kinds) and render it, catching any thrown error into
a `console.error` report. -/
def generateAutogeneratedType (tc : TypeCompiler) (k title : String) (st : GenState) : Option String × GenState :=
  if autogeneratedPropertyTypes.contains k then
    match generateTypeString tc k title st with
    | .ok (ts, st2) => (some ts, st2)
    | .error e =>
      (none, { st with consoleLog :=
        st.consoleLog ++ [("Error generating type " ++ k ++ " with title " ++ title, e)] })
  else (none, st)

/-- `#generateType`: render a shared kind only if its registry entry is
still false. -/
def generateType (tc : TypeCompiler) (k title : String) (st : GenState) : Option String × GenState :=
  if flagGet st.hasTypeBeenGenerated k then (none, st)
  else generateAutogeneratedType tc k title st

/-- The state part of one `#typeMapper` iteration: only the
autogenerated-kind branch touches the run state (possible shared-type
render plus push of the rendered text); tab markers, custom fields and
all other kinds leave it unchanged. -/
def fieldStateUpdate (tc : TypeCompiler) (opts : GenOptions) (schemaKey : String) (el : ISbBlokPropertySchema) (st : GenState) : GenState :=
  if strStartsWith schemaKey "tab-" then st
  else if el.type == "custom" then st
  else if autogeneratedPropertyTypes.contains el.type then
    match generateType tc el.type (getBlokTypeName opts el.type) st with
    | (some ts, st2) => { st2 with typeDefsFileStrings := st2.typeDefsFileStrings ++ [ts] }
    | (none, st2) => st2
  else st

/-- The `parseObj` part of one `#typeMapper` iteration: tab markers are
skipped, a custom field merges the resolver's fragment (or nothing)
instead of its own entry, every other field assigns its resolved
specification under its own key. -/
def fieldObjUpdate (opts : GenOptions) (resolver : Option CustomTypeResolver) (groups : List (String × List String)) (names : List String) (parseObj : List (String × PropTypeSpec)) (schemaKey : String) (el : ISbBlokPropertySchema) : List (String × PropTypeSpec) :=
  if strStartsWith schemaKey "tab-" then parseObj
  else if el.type == "custom" then
    let fragment : List (String × PropTypeSpec) :=
      match resolver with
      | some f => f schemaKey el
      | none => []
    fragment.foldl (fun acc p => jsObjSet acc p.1 p.2) parseObj
  else jsObjSet parseObj schemaKey (fieldSpec opts groups names el)

/-- The run-state evolution of `#typeMapper` over one component schema. -/
def typeMapperState (tc : TypeCompiler) (opts : GenOptions) (st : GenState) (schema : List (String × ISbBlokPropertySchema)) : GenState :=
  schema.foldl (fun st kv => fieldStateUpdate tc opts kv.1 kv.2 st) st

/-- The `parseObj` result of `#typeMapper` over one component schema. -/
def typeMapperObj (opts : GenOptions) (resolver : Option CustomTypeResolver) (groups : List (String × List String)) (names : List String) (schema : List (String × ISbBlokPropertySchema)) : List (String × PropTypeSpec) :=
  schema.foldl (fun acc kv => fieldObjUpdate opts resolver groups names acc kv.1 kv.2) []

/-- The required-field reduction of `generateTSFile`: start from
`["component", "_uid"]` and append every field key whose descriptor is
marked required. -/
def requiredFields (c : ComponentJSONSchema) : List String :=
  c.schema.foldl (fun acc kv => if kv.2.required then acc ++ [kv.1] else acc)
    ["component", "_uid"]

/-- The composite specification `generateTSFile` submits to the external
compiler for one component: id, formatted title, the object type, the
required list, and the resolved properties with `_uid` and `component`
assigned last. -/
def componentCompileInput (opts : GenOptions) (resolver : Option CustomTypeResolver) (groups : List (String × List String)) (names : List String) (c : ComponentJSONSchema) : ComponentCompileInput :=
  { id := "#/" ++ c.name,
    title := getBlokTypeName opts c.name,
    typeKind := "object",
    required := requiredFields c,
    properties :=
      jsObjSet
        (jsObjSet (typeMapperObj opts resolver groups names c.schema)
          "_uid" { type := some (JType.one "string") })
        "component" { type := some (JType.one "string"), enum := some [c.name] } }

/-- One iteration of `generateTSFile`'s component loop: resolve the
fields (threading the run state), compile the composite specification,
and either push the rendered text or log `("ERROR", e)` and continue. -/
def processComponent (tc : TypeCompiler) (opts : GenOptions) (resolver : Option CustomTypeResolver) (groups : List (String × List String)) (names : List String) (st : GenState) (c : ComponentJSONSchema) : GenState :=
  let st1 := typeMapperState tc opts st c.schema
  match tc.compileComponent (componentCompileInput opts resolver groups names c) c.name with
  | .ok ts => { st1 with typeDefsFileStrings := st1.typeDefsFileStrings ++ [ts] }
  | .error e => { st1 with consoleLog := st1.consoleLog ++ [("ERROR", e)] }

/-- The whole run (`init` + `generateTSFile`): build the group index,
then fold the component loop over the initial state. -/
def generateTSFile (cs : List ComponentJSONSchema) (opts : GenOptions) (resolver : Option CustomTypeResolver) (tc : TypeCompiler) : GenState :=
  let gn := generateComponentGroupsAndComponentNames cs
  cs.foldl (processComponent tc opts resolver gn.componentGroups gn.componentNames) initialState

/-- Substring test on strings (used to state what an error report does or
does not mention). -/
def strContains (hay needle : String) : Bool :=
  decide (needle.data <:+: hay.data)

/-- The run invariant behind the at-most-once emission contract for one
shared kind `k` whose (unique per run) successful render text is
`target`: the buffer holds at most one copy of `target`, and none at all
while the registry entry for `k` is still false. -/
def EmitInv (k target : String) (st : GenState) : Prop :=
  List.count target st.typeDefsFileStrings ≤ 1 ∧
  (flagGet st.hasTypeBeenGenerated k = false →
    List.count target st.typeDefsFileStrings = 0)

/-! Concrete fixtures used by witnesses and counterexamples. -/

/-- Demo options: no prefix, explicit empty suffix. -/
def demoOpts : GenOptions := { typeNamesPfx := none, typeNamesSuffix := some "" }

/-- A compiler oracle that renders only the `asset` shared kind and
rejects every component. -/
def demoSharedOnlyTC : TypeCompiler :=
  { compileShared := fun k _t =>
      if k = "asset" then Except.ok "ASSET_TS" else Except.error "shared unavailable",
    compileComponent := fun _inp _nm => Except.error "component compiler unavailable" }

/-- A compiler oracle that rejects exactly the component named `foo`. -/
def demoFailTC : TypeCompiler :=
  { compileShared := fun _k _t => Except.error "unused",
    compileComponent := fun _inp nm =>
      if nm = "foo" then Except.error "schema rejected" else Except.ok ("type " ++ nm) }

/-- An asset field descriptor. -/
def demoAssetField : ISbBlokPropertySchema := { type := "asset" }

/-- Two components that both carry an asset field. -/
def demoComponents : List ComponentJSONSchema :=
  [{ name := "hero", schema := [("img", demoAssetField)] },
   { name := "card", schema := [("pic", demoAssetField)] }]

/-- A component named `foo` (rejected by `demoFailTC`). -/
def demoFoo : ComponentJSONSchema := { name := "foo" }

/-- A component named `bar` (accepted by `demoFailTC`). -/
def demoBar : ComponentJSONSchema := { name := "bar" }

/-- A bloks field restricted by groups whose whitelist is present but
empty. -/
def demoEmptyGroupBloks : ISbBlokPropertySchema :=
  { type := "bloks", restrict_components := true, restrict_type := some "groups",
    component_group_whitelist := some [] }

/-- A bloks field restricted by groups to one group id that matches no
registered group. -/
def demoNeverBloks : ISbBlokPropertySchema :=
  { type := "bloks", restrict_components := true, restrict_type := some "groups",
    component_group_whitelist := some ["gX"] }

/-- An unrestricted bloks field. -/
def demoUnrestrictedBloks : ISbBlokPropertySchema := { type := "bloks" }

/-- A multilink field with both link-permission flags unset. -/
def demoMultilink : ISbBlokPropertySchema := { type := "multilink" }

/-- An `internal_stories` field whose `filter_content_type` is present
but empty. -/
def demoEmptyFilterStories : ISbBlokPropertySchema :=
  { type := "text", source := some "internal_stories", filter_content_type := some [] }

/-- A custom field descriptor. -/
def demoCustomField : ISbBlokPropertySchema := { type := "custom" }

/-- An `internal_stories` single-select field filtered to one content
type. -/
def demoStoriesOption : ISbBlokPropertySchema :=
  { type := "option", source := some "internal_stories",
    filter_content_type := some ["article"] }

/-! Helper lemmas about the association-list model of JS objects. -/

theorem jsObjGet_jsObjSet_self {α : Type} (o : List (String × α)) (k : String) (v : α) :
    jsObjGet (jsObjSet o k v) k = some v := by
  induction o with
  | nil =>
    simp [jsObjSet, jsObjGet, List.find?]
  | cons p rest ih =>
    obtain ⟨k2, v2⟩ := p
    by_cases h : k2 = k
    · subst h
      simp [jsObjSet, jsObjGet, List.find?]
    · have hb : (k2 == k) = false := by simp [h]
      simp only [jsObjSet, hb, if_false]
      simpa [jsObjGet, List.find?, hb] using ih

theorem jsObjGet_jsObjSet_ne {α : Type} (o : List (String × α)) (k k2 : String) (v : α)
    (h : k2 ≠ k) : jsObjGet (jsObjSet o k v) k2 = jsObjGet o k2 := by
  have hne : k ≠ k2 := Ne.symm h
  induction o with
  | nil =>
    have hb : (k == k2) = false := by simp [hne]
    simp [jsObjSet, jsObjGet, List.find?, hb]
  | cons p rest ih =>
    obtain ⟨k3, v3⟩ := p
    by_cases h3 : k3 = k
    · subst h3
      have hb : (k3 == k2) = false := by simp [hne]
      simp [jsObjSet, jsObjGet, List.find?, hb]
    · have hb : (k3 == k) = false := by simp [h3]
      by_cases h4 : k3 = k2
      · subst h4
        simp [jsObjSet, hb, jsObjGet, List.find?]
      · have hb4 : (k3 == k2) = false := by simp [h4]
        simp only [jsObjSet, hb, if_false]
        simpa [jsObjGet, List.find?, hb4] using ih

theorem flagGet_jsObjSet_self (fl : List (String × Bool)) (k : String) (v : Bool) :
    flagGet (jsObjSet fl k v) k = v := by
  simp [flagGet, jsObjGet_jsObjSet_self]

theorem flagGet_jsObjSet_ne (fl : List (String × Bool)) (k k2 : String) (v : Bool)
    (h : k2 ≠ k) : flagGet (jsObjSet fl k v) k2 = flagGet fl k2 := by
  simp [flagGet, jsObjGet_jsObjSet_ne _ _ _ _ h]

theorem flagGet_all_false (fl : List (String × Bool)) (h : ∀ p ∈ fl, p.2 = false)
    (k : String) : flagGet fl k = false := by
  unfold flagGet jsObjGet
  cases hf : fl.find? (fun p => p.1 == k) with
  | none => rfl
  | some p =>
    have hm := List.mem_of_find?_eq_some hf
    simp [h p hm]

theorem flagGet_initialState (k : String) :
    flagGet initialState.hasTypeBeenGenerated k = false :=
  flagGet_all_false _ (by decide) k

/-- Each `#typeMapper` iteration either leaves the run state unchanged,
only appends a console entry, or — exactly when the field's kind is a
shared kind whose registry entry is still false and whose render
succeeds — marks the kind generated and appends the rendered text. -/
theorem fieldStateUpdate_cases (tc : TypeCompiler) (opts : GenOptions) (key : String)
    (el : ISbBlokPropertySchema) (st : GenState) :
    fieldStateUpdate tc opts key el st = st ∨
    (∃ entry, fieldStateUpdate tc opts key el st =
      { st with consoleLog := st.consoleLog ++ [entry] }) ∨
    (∃ ts, autogeneratedPropertyTypes.contains el.type = true ∧
      flagGet st.hasTypeBeenGenerated el.type = false ∧
      tc.compileShared el.type (getBlokTypeName opts el.type) = Except.ok ts ∧
      fieldStateUpdate tc opts key el st =
        { st with
          hasTypeBeenGenerated := jsObjSet st.hasTypeBeenGenerated el.type true,
          typeDefsFileStrings := st.typeDefsFileStrings ++ [ts] }) := by
  unfold fieldStateUpdate
  by_cases htab : strStartsWith key "tab-" = true
  · rw [if_pos htab]
    exact Or.inl rfl
  · rw [if_neg htab]
    by_cases hcust : (el.type == "custom") = true
    · rw [if_pos hcust]
      exact Or.inl rfl
    · rw [if_neg hcust]
      by_cases hauto : autogeneratedPropertyTypes.contains el.type = true
      · rw [if_pos hauto]
        by_cases hflag : flagGet st.hasTypeBeenGenerated el.type = true
        · have hg : generateType tc el.type (getBlokTypeName opts el.type) st = (none, st) := by
            unfold generateType
            rw [if_pos hflag]
          rw [hg]
          exact Or.inl rfl
        · have hflag2 : flagGet st.hasTypeBeenGenerated el.type = false :=
            Bool.eq_false_iff.mpr hflag
          cases hcs : tc.compileShared el.type (getBlokTypeName opts el.type) with
          | ok ts =>
            have hg : generateType tc el.type (getBlokTypeName opts el.type) st =
                (some ts, { st with hasTypeBeenGenerated := jsObjSet st.hasTypeBeenGenerated el.type true }) := by
              unfold generateType generateAutogeneratedType generateTypeString
              rw [if_neg hflag, if_pos hauto, hcs]
            rw [hg]
            exact Or.inr (Or.inr ⟨ts, hauto, hflag2, rfl, rfl⟩)
          | error e =>
            have hg : generateType tc el.type (getBlokTypeName opts el.type) st =
                (none, { st with consoleLog := st.consoleLog ++ [("Error generating type " ++ el.type ++ " with title " ++ getBlokTypeName opts el.type, e)] }) := by
              unfold generateType generateAutogeneratedType generateTypeString
              rw [if_neg hflag, if_pos hauto, hcs]
            rw [hg]
            exact Or.inr (Or.inl ⟨_, rfl⟩)
      · rw [if_neg hauto]
        exact Or.inl rfl

/-- The registry is monotone across one field iteration: a kind already
marked generated stays marked. -/
theorem flags_mono_fieldStateUpdate (tc : TypeCompiler) (opts : GenOptions) (key : String)
    (el : ISbBlokPropertySchema) (st : GenState) (k : String)
    (h : flagGet st.hasTypeBeenGenerated k = true) :
    flagGet (fieldStateUpdate tc opts key el st).hasTypeBeenGenerated k = true := by
  rcases fieldStateUpdate_cases tc opts key el st with hc | ⟨entry, hc⟩ | ⟨ts, _, _, _, hc⟩
  · rw [hc]; exact h
  · rw [hc]; exact h
  · rw [hc]
    by_cases hk : el.type = k
    · subst hk
      simp [flagGet_jsObjSet_self]
    · show flagGet (jsObjSet st.hasTypeBeenGenerated el.type true) k = true
      rw [flagGet_jsObjSet_ne _ _ _ _ (fun hh => hk hh.symm)]
      exact h

theorem flags_mono_typeMapperState (tc : TypeCompiler) (opts : GenOptions)
    (schema : List (String × ISbBlokPropertySchema)) :
    ∀ (st : GenState) (k : String), flagGet st.hasTypeBeenGenerated k = true →
    flagGet (typeMapperState tc opts st schema).hasTypeBeenGenerated k = true := by
  induction schema with
  | nil => intro st k h; exact h
  | cons kv rest ih =>
    intro st k h
    exact ih _ k (flags_mono_fieldStateUpdate tc opts kv.1 kv.2 st k h)

theorem flags_mono_processComponent (tc : TypeCompiler) (opts : GenOptions)
    (resolver : Option CustomTypeResolver) (groups : List (String × List String))
    (names : List String) (st : GenState) (c : ComponentJSONSchema) (k : String)
    (h : flagGet st.hasTypeBeenGenerated k = true) :
    flagGet (processComponent tc opts resolver groups names st c).hasTypeBeenGenerated k = true := by
  unfold processComponent
  have h1 := flags_mono_typeMapperState tc opts c.schema st k h
  cases tc.compileComponent (componentCompileInput opts resolver groups names c) c.name with
  | ok ts => exact h1
  | error e => exact h1

/-- One field iteration preserves the emission invariant, given that the
only shared render that can produce `target` is the one for kind `k`. -/
theorem emitInv_fieldStateUpdate (tc : TypeCompiler) (opts : GenOptions) (k target : String)
    (htarget : tc.compileShared k (getBlokTypeName opts k) = Except.ok target)
    (hshared : ∀ k2 ts, k2 ≠ k →
      tc.compileShared k2 (getBlokTypeName opts k2) = Except.ok ts → ts ≠ target)
    (key : String) (el : ISbBlokPropertySchema) (st : GenState)
    (hinv : EmitInv k target st) :
    EmitInv k target (fieldStateUpdate tc opts key el st) := by
  rcases fieldStateUpdate_cases tc opts key el st with hc | ⟨entry, hc⟩ | ⟨ts, hauto, hflag, hcs, hc⟩
  · rw [hc]; exact hinv
  · rw [hc]; exact hinv
  · rw [hc]
    by_cases hk : el.type = k
    · subst hk
      have hts : ts = target := by
        rw [htarget] at hcs
        exact (Except.ok.inj hcs).symm
      subst hts
      have hcount0 : List.count ts st.typeDefsFileStrings = 0 := hinv.2 hflag
      constructor
      · show List.count ts (st.typeDefsFileStrings ++ [ts]) ≤ 1
        rw [List.count_append, hcount0, List.count_singleton' ts ts]
        simp
      · intro hfalse
        exfalso
        have hproj : flagGet (jsObjSet st.hasTypeBeenGenerated el.type true) el.type = false := hfalse
        rw [flagGet_jsObjSet_self] at hproj
        exact Bool.noConfusion hproj
    · have hts : ts ≠ target := hshared el.type ts hk hcs
      have hcount : List.count target (st.typeDefsFileStrings ++ [ts]) =
          List.count target st.typeDefsFileStrings := by
        rw [List.count_append, List.count_singleton' target ts, if_neg hts, Nat.add_zero]
      constructor
      · show List.count target (st.typeDefsFileStrings ++ [ts]) ≤ 1
        rw [hcount]; exact hinv.1
      · intro hfalse
        have hproj : flagGet (jsObjSet st.hasTypeBeenGenerated el.type true) k = false := hfalse
        rw [flagGet_jsObjSet_ne _ _ _ _ (fun hh => hk hh.symm)] at hproj
        show List.count target (st.typeDefsFileStrings ++ [ts]) = 0
        rw [hcount]
        exact hinv.2 hproj

theorem emitInv_typeMapperState (tc : TypeCompiler) (opts : GenOptions) (k target : String)
    (htarget : tc.compileShared k (getBlokTypeName opts k) = Except.ok target)
    (hshared : ∀ k2 ts, k2 ≠ k →
      tc.compileShared k2 (getBlokTypeName opts k2) = Except.ok ts → ts ≠ target)
    (schema : List (String × ISbBlokPropertySchema)) :
    ∀ (st : GenState), EmitInv k target st →
    EmitInv k target (typeMapperState tc opts st schema) := by
  induction schema with
  | nil => intro st h; exact h
  | cons kv rest ih =>
    intro st h
    exact ih _ (emitInv_fieldStateUpdate tc opts k target htarget hshared kv.1 kv.2 st h)

theorem emitInv_processComponent (tc : TypeCompiler) (opts : GenOptions)
    (resolver : Option CustomTypeResolver) (groups : List (String × List String))
    (names : List String) (k target : String)
    (htarget : tc.compileShared k (getBlokTypeName opts k) = Except.ok target)
    (hshared : ∀ k2 ts, k2 ≠ k →
      tc.compileShared k2 (getBlokTypeName opts k2) = Except.ok ts → ts ≠ target)
    (hcomp : ∀ inp nm ts, tc.compileComponent inp nm = Except.ok ts → ts ≠ target)
    (st : GenState) (c : ComponentJSONSchema) (hinv : EmitInv k target st) :
    EmitInv k target (processComponent tc opts resolver groups names st c) := by
  unfold processComponent
  have h1 := emitInv_typeMapperState tc opts k target htarget hshared c.schema st hinv
  cases hcc : tc.compileComponent (componentCompileInput opts resolver groups names c) c.name with
  | ok ts =>
    have hts : ts ≠ target := hcomp _ _ _ hcc
    constructor
    · show List.count target ((typeMapperState tc opts st c.schema).typeDefsFileStrings ++ [ts]) ≤ 1
      rw [List.count_append, List.count_singleton' target ts, if_neg hts]
      simpa using h1.1
    · intro hfalse
      show List.count target ((typeMapperState tc opts st c.schema).typeDefsFileStrings ++ [ts]) = 0
      rw [List.count_append, List.count_singleton' target ts, if_neg hts]
      simpa using h1.2 hfalse
  | error e => exact h1

theorem emitInv_foldl (tc : TypeCompiler) (opts : GenOptions)
    (resolver : Option CustomTypeResolver) (groups : List (String × List String))
    (names : List String) (k target : String)
    (htarget : tc.compileShared k (getBlokTypeName opts k) = Except.ok target)
    (hshared : ∀ k2 ts, k2 ≠ k →
      tc.compileShared k2 (getBlokTypeName opts k2) = Except.ok ts → ts ≠ target)
    (hcomp : ∀ inp nm ts, tc.compileComponent inp nm = Except.ok ts → ts ≠ target)
    (cs : List ComponentJSONSchema) :
    ∀ (st : GenState), EmitInv k target st →
    EmitInv k target (cs.foldl (processComponent tc opts resolver groups names) st) := by
  induction cs with
  | nil => intro st h; exact h
  | cons c rest ih =>
    intro st h
    exact ih _ (emitInv_processComponent tc opts resolver groups names k target
      htarget hshared hcomp st c h)

/-- Claim C1: for every run and every shared kind, at most one rendered
definition for that kind is appended to the output, however many fields
across however many components carry the kind (the hypotheses state that
the kind's render text is distinguishable from the import header, from
component renders and from other kinds' renders); moreover once the
registry entry for the kind is true, `#generateType` never renders it
again (it returns falsy and leaves the state untouched), and the registry
is monotone across every component iteration, so the entry is flipped to
true at most once per run. -/
theorem sharedKind_rendered_at_most_once
    (tc : TypeCompiler) (opts : GenOptions) (resolver : Option CustomTypeResolver)
    (cs : List ComponentJSONSchema) (k target : String)
    (htarget : tc.compileShared k (getBlokTypeName opts k) = Except.ok target)
    (himport : importHeader ≠ target)
    (hcomp : ∀ inp nm ts, tc.compileComponent inp nm = Except.ok ts → ts ≠ target)
    (hshared : ∀ k2 ts, k2 ≠ k →
      tc.compileShared k2 (getBlokTypeName opts k2) = Except.ok ts → ts ≠ target) :
    List.count target (generateTSFile cs opts resolver tc).typeDefsFileStrings ≤ 1
    ∧ (∀ (st : GenState) (title : String), flagGet st.hasTypeBeenGenerated k = true →
        generateType tc k title st = (none, st))
    ∧ (∀ (groups : List (String × List String)) (names : List String)
        (st : GenState) (c : ComponentJSONSchema),
        flagGet st.hasTypeBeenGenerated k = true →
        flagGet (processComponent tc opts resolver groups names st c).hasTypeBeenGenerated k = true) := by
  refine ⟨?_, ?_, ?_⟩
  · have hinit : EmitInv k target initialState := by
      constructor
      · show List.count target [importHeader] ≤ 1
        rw [List.count_singleton' target importHeader, if_neg himport]
        exact Nat.zero_le 1
      · intro _
        show List.count target [importHeader] = 0
        rw [List.count_singleton' target importHeader, if_neg himport]
    exact (emitInv_foldl tc opts resolver
      (generateComponentGroupsAndComponentNames cs).componentGroups
      (generateComponentGroupsAndComponentNames cs).componentNames
      k target htarget hshared hcomp cs initialState hinit).1
  · intro st title h
    unfold generateType
    rw [if_pos h]
  · intro groups names st c h
    exact flags_mono_processComponent tc opts resolver groups names st c k h

/-- Witness for C1 at a concrete run: two components each carrying an
asset field, an oracle that renders the asset kind as `"ASSET_TS"`. -/
theorem sharedKind_rendered_at_most_once_witness :
    List.count "ASSET_TS"
      (generateTSFile demoComponents demoOpts none demoSharedOnlyTC).typeDefsFileStrings ≤ 1 :=
  (sharedKind_rendered_at_most_once demoSharedOnlyTC demoOpts none demoComponents
    "asset" "ASSET_TS"
    (by rfl)
    (by decide)
    (fun _inp _nm _ts h => Except.noConfusion h)
    (by
      intro k2 ts hne h
      simp only [demoSharedOnlyTC] at h
      rw [if_neg hne] at h
      exact Except.noConfusion h)).1

/-- Counterexample for C3: a run in which the compiler rejects component
`foo` with raw error `"schema rejected"`.  The logged report is exactly
`("ERROR", "schema rejected")`: neither of its parts contains the failing
component's name, while the run does continue (the later component `bar`
is still rendered and `foo`'s output is omitted). -/
theorem componentError_report_lacks_name :
    (generateTSFile [demoFoo, demoBar] demoOpts none demoFailTC).consoleLog =
        [("ERROR", "schema rejected")]
    ∧ strContains "ERROR" "foo" = false
    ∧ strContains "schema rejected" "foo" = false
    ∧ (generateTSFile [demoFoo, demoBar] demoOpts none demoFailTC).typeDefsFileStrings =
        [importHeader, "type bar"] := by
  refine ⟨rfl, by decide, by decide, rfl⟩

/-- Claim C3 (amended): when the external compiler rejects a component's
composite specification, the report logged is exactly the pair
`("ERROR", rawError)` — it carries the raw error only, not the
component's name —, the component's own output is omitted (the buffer
keeps only what the field resolution already pushed), and the fold over
the remaining components continues from the resulting state. -/
theorem componentError_logged_and_run_continues
    (tc : TypeCompiler) (opts : GenOptions) (resolver : Option CustomTypeResolver)
    (groups : List (String × List String)) (names : List String)
    (st : GenState) (c : ComponentJSONSchema) (e : String)
    (h : tc.compileComponent (componentCompileInput opts resolver groups names c) c.name =
      Except.error e) :
    processComponent tc opts resolver groups names st c =
      { typeMapperState tc opts st c.schema with
        consoleLog := (typeMapperState tc opts st c.schema).consoleLog ++ [("ERROR", e)] }
    ∧ (∀ rest, List.foldl (processComponent tc opts resolver groups names) st (c :: rest) =
        List.foldl (processComponent tc opts resolver groups names)
          (processComponent tc opts resolver groups names st c) rest) := by
  constructor
  · unfold processComponent
    rw [h]
  · intro rest
    rfl

/-- Witness for the amended C3, applying it at the rejected component
`foo`. -/
theorem componentError_logged_witness :
    processComponent demoFailTC demoOpts none [] [] initialState demoFoo =
      { typeMapperState demoFailTC demoOpts initialState demoFoo.schema with
        consoleLog := (typeMapperState demoFailTC demoOpts initialState demoFoo.schema).consoleLog
          ++ [("ERROR", "schema rejected")] } :=
  (componentError_logged_and_run_continues demoFailTC demoOpts none [] []
    initialState demoFoo "schema rejected" (by rfl)).1

/-- Counterexample for C2: a bloks field restricted by groups whose
whitelist is present but empty resolves to the plain generic array
annotation (no `tsType` at all), not to the `never[]` empty-array
specification the claim requires. -/
theorem bloksEmptyWhitelist_not_never :
    fieldSpec demoOpts [] [] demoEmptyGroupBloks = { type := some (JType.one "array") }
    ∧ (fieldSpec demoOpts [] [] demoEmptyGroupBloks).tsType ≠ some "never[]" := by
  refine ⟨by decide, by decide⟩

/-- Claim C2 (amended): for a restricted bloks field, a missing or empty
restriction list (group whitelist under `restrict_type = "groups"`,
component whitelist otherwise) leaves the annotation exactly as the base
parse produced it — the generic array type, no error and no `tsType`
override; the `never[]` empty-array specification is produced exactly
when a non-empty group whitelist resolves to zero eligible component
names. -/
theorem bloksRestriction_empty_cases
    (opts : GenOptions) (groups : List (String × List String)) (names : List String)
    (el : ISbBlokPropertySchema) (wl : List String)
    (h1 : el.type = "bloks") (h2 : el.restrict_components = true) :
    (el.restrict_type = some "groups" →
      (el.component_group_whitelist = none ∨ el.component_group_whitelist = some []) →
      fieldSpec opts groups names el = parseBlokSchemaProperty opts el)
    ∧ (el.restrict_type ≠ some "groups" →
      (el.component_whitelist = none ∨ el.component_whitelist = some []) →
      fieldSpec opts groups names el = parseBlokSchemaProperty opts el)
    ∧ (el.restrict_type = some "groups" → el.component_group_whitelist = some wl →
      wl ≠ [] → currentGroupElements opts groups wl = [] →
      (fieldSpec opts groups names el).tsType = some "never[]") := by
  have hauto : autogeneratedPropertyTypes.contains el.type = false := by rw [h1]; rfl
  have hauto2 : el.type ∉ autogeneratedPropertyTypes := by rw [h1]; decide
  have hml : (el.type == "multilink") = false := by rw [h1]; rfl
  have hbl : (el.type == "bloks") = true := by rw [h1]; rfl
  refine ⟨?_, ?_, ?_⟩
  · intro hrt hw
    rcases hw with hw | hw <;>
      simp [fieldSpec, hauto, hauto2, hml, hbl, h2, hrt, hw]
  · intro hrt hw
    rcases hw with hw | hw <;>
      simp [fieldSpec, hauto, hauto2, hml, hbl, h2, hrt, hw]
  · intro hrt hw hne hce
    have hlen : wl.length > 0 := List.length_pos.mpr hne
    simp [fieldSpec, hauto, hml, hbl, h2, hrt, hw, hlen, hce]

/-- Witness for the amended C2 at a concrete field whose non-empty group
whitelist matches no registered group. -/
theorem bloksRestriction_empty_cases_witness :
    (fieldSpec demoOpts [] [] demoNeverBloks).tsType = some "never[]" :=
  (bloksRestriction_empty_cases demoOpts [] [] demoNeverBloks ["gX"] rfl rfl).2.2
    rfl rfl (by decide) rfl

theorem mem_jsSetAdd_self (s : List String) (x : String) : x ∈ jsSetAdd s x := by
  unfold jsSetAdd
  by_cases h : s.contains x = true
  · rw [if_pos h]
    exact List.elem_iff.mp h
  · rw [if_neg h]
    exact List.mem_append_right s (List.mem_singleton.mpr rfl)

theorem mem_jsSetAdd_of_mem (s : List String) (x y : String) (h : y ∈ s) :
    y ∈ jsSetAdd s x := by
  unfold jsSetAdd
  split
  · exact h
  · exact List.mem_append_left _ h

/-- The all-names set built by the group index builder contains every
component's name (in particular the owning component's own name and the
names of components that belong to no group). -/
theorem names_mem_groupIndex (cs : List ComponentJSONSchema) :
    ∀ acc : GroupsAndNames,
      (∀ y, y ∈ acc.componentNames → y ∈ (cs.foldl groupIndexStep acc).componentNames)
      ∧ (∀ c ∈ cs, c.name ∈ (cs.foldl groupIndexStep acc).componentNames) := by
  induction cs with
  | nil =>
    intro acc
    exact ⟨fun y h => h, fun c hc => absurd hc (List.not_mem_nil c)⟩
  | cons c rest ih =>
    intro acc
    have hstep : (groupIndexStep acc c).componentNames = jsSetAdd acc.componentNames c.name := rfl
    constructor
    · intro y hy
      have hy2 : y ∈ (groupIndexStep acc c).componentNames := by
        rw [hstep]
        exact mem_jsSetAdd_of_mem _ _ _ hy
      exact (ih (groupIndexStep acc c)).1 y hy2
    · intro c2 hc2
      rcases List.mem_cons.mp hc2 with he | hm
      · subst he
        have hy2 : c2.name ∈ (groupIndexStep acc c2).componentNames := by
          rw [hstep]
          exact mem_jsSetAdd_self _ _
        exact (ih (groupIndexStep acc c2)).1 c2.name hy2
      · exact (ih (groupIndexStep acc c)).2 c2 hm

/-- Claim C4: a bloks field with `restrict_components` false or absent
resolves to an array over the union of all component names known in the
run's group index, each formatted through the name formatter; and the
all-names set of the group index contains every component of the run —
in particular the owning component itself and components in no group. -/
theorem bloksUnrestricted_union_of_all_names
    (opts : GenOptions) (groups : List (String × List String)) (names : List String)
    (el : ISbBlokPropertySchema) (cs : List ComponentJSONSchema)
    (h1 : el.type = "bloks") (h2 : el.restrict_components = false) :
    (fieldSpec opts groups names el).tsType =
      some ("(" ++ String.intercalate " | " (names.map (getBlokTypeName opts)) ++ ")[]")
    ∧ ∀ c ∈ cs, c.name ∈ (generateComponentGroupsAndComponentNames cs).componentNames := by
  constructor
  · have hauto : autogeneratedPropertyTypes.contains el.type = false := by rw [h1]; rfl
    have hml : (el.type == "multilink") = false := by rw [h1]; rfl
    have hbl : (el.type == "bloks") = true := by rw [h1]; rfl
    simp [fieldSpec, hauto, hml, hbl, h2]
  · exact (names_mem_groupIndex cs {}).2

/-- Witness for C4 at a run knowing the names `teaser` and `grid`. -/
theorem bloksUnrestricted_witness :
    (fieldSpec demoOpts [] ["teaser", "grid"] demoUnrestrictedBloks).tsType =
      some "(Teaser | Grid)[]" :=
  (bloksUnrestricted_union_of_all_names demoOpts [] ["teaser", "grid"]
    demoUnrestrictedBloks [] rfl rfl).1

theorem intercalate_single (s a : String) : String.intercalate s [a] = a := rfl

theorem intercalate_pair (s a b : String) : String.intercalate s [a, b] = a ++ s ++ b := rfl

/-- Claim C5: a multilink field excludes the email-link shape unless
`email_link_type` is explicitly true and the asset-link shape unless
`asset_link_type` is explicitly true; with both flags false the resolved
type is the base reference wrapped with both exclusions, with both true
it is the unwrapped base reference, and with exactly one flag set only
the other shape is excluded. -/
theorem multilink_linktype_exclusions
    (opts : GenOptions) (groups : List (String × List String)) (names : List String)
    (el : ISbBlokPropertySchema) (h : el.type = "multilink") :
    (el.email_link_type = false → el.asset_link_type = false →
      (fieldSpec opts groups names el).tsType =
        some ("Exclude<" ++ getBlokTypeName opts "multilink" ++ ", " ++
          emailLinkShape ++ " | " ++ assetLinkShape ++ ">"))
    ∧ (el.email_link_type = true → el.asset_link_type = true →
      (fieldSpec opts groups names el).tsType = some (getBlokTypeName opts "multilink"))
    ∧ (el.email_link_type = true → el.asset_link_type = false →
      (fieldSpec opts groups names el).tsType =
        some ("Exclude<" ++ getBlokTypeName opts "multilink" ++ ", " ++ assetLinkShape ++ ">"))
    ∧ (el.email_link_type = false → el.asset_link_type = true →
      (fieldSpec opts groups names el).tsType =
        some ("Exclude<" ++ getBlokTypeName opts "multilink" ++ ", " ++ emailLinkShape ++ ">")) := by
  have hml : (el.type == "multilink") = true := by rw [h]; rfl
  have hbl : (el.type == "bloks") = false := by rw [h]; rfl
  refine ⟨?_, ?_, ?_, ?_⟩ <;>
    · intro he ha
      simp [fieldSpec, hml, hbl, he, ha, h, intercalate_pair, intercalate_single,
        String.append_assoc]

/-- Witness for C5 at a multilink field with both permission flags
unset. -/
theorem multilink_linktype_exclusions_witness :
    (fieldSpec demoOpts [] [] demoMultilink).tsType =
      some "Exclude<Multilink, \x7b linktype?: \"email\" \x7d | \x7b linktype?: \"asset\" \x7d>" :=
  (multilink_linktype_exclusions demoOpts [] [] demoMultilink rfl).1 rfl rfl

/-- Counterexample for C6: a field whose `source` is `internal_stories`
and whose `filter_content_type` is present but EMPTY still takes the
internal-stories rule (JS truthiness of an empty array), producing the
degenerate union `( | string )` instead of falling through to the
text-kind fallback the claim implies. -/
theorem internalStories_emptyFilter_applies :
    parseBlokSchemaProperty demoOpts demoEmptyFilterStories = { tsType := some "( | string )" }
    ∧ parseBlokSchemaProperty demoOpts demoEmptyFilterStories ≠
        { type := some (JType.one "string") } := by
  refine ⟨by decide, by decide⟩

theorem parseBlokSchemaPropertyRest_tsType_none (p : ISbBlokPropertySchema)
    (options : List String) : (parseBlokSchemaPropertyRest p options).tsType = none := by
  unfold parseBlokSchemaPropertyRest
  repeat' split
  all_goals rfl

/-- Claim C6 (amended): for a non-shared kind the internal-stories rule
applies exactly when `source` is `"internal_stories"` and
`filter_content_type` is PRESENT (a present-but-empty list also
triggers, degenerating to the bare string fallback); it resolves to the
union over the listed content types of the story wrapper around each
formatted name, plus the string fallback, wrapped as an array exactly
when the kind is the multi-select variant `"options"`; in every other
case no `tsType` is produced by the property parser. -/
theorem internalStories_rule (opts : GenOptions) (p : ISbBlokPropertySchema) :
    (∀ l, p.source = some "internal_stories" → p.filter_content_type = some l →
      autogeneratedPropertyTypes.contains p.type = false →
      parseBlokSchemaProperty opts p =
        { tsType := some ("(" ++ String.intercalate " | " (l.map (getStoryType opts)) ++
            " | string )" ++ (if p.type == "options" then "[]" else "")) })
    ∧ ((p.source ≠ some "internal_stories" ∨ p.filter_content_type = none) →
      (parseBlokSchemaProperty opts p).tsType = none) := by
  constructor
  · intro l hs hf hk
    have hk2 : p.type ∉ autogeneratedPropertyTypes := by
      intro hm
      have h3 : autogeneratedPropertyTypes.contains p.type = true := List.elem_iff.mpr hm
      rw [hk] at h3
      exact Bool.noConfusion h3
    simp [parseBlokSchemaProperty, hk, hk2, hs, hf]
  · intro hcase
    by_cases hk : autogeneratedPropertyTypes.contains p.type = true
    · unfold parseBlokSchemaProperty
      rw [if_pos hk]
    · have hk2 : p.type ∉ autogeneratedPropertyTypes := by
        intro hm
        exact hk (List.elem_iff.mpr hm)
      rcases hcase with hs | hf
      · have hsb : (p.source == some "internal_stories") = false := by simp [hs]
        simp [parseBlokSchemaProperty, hk, hk2, hsb, parseBlokSchemaPropertyRest_tsType_none]
      · simp [parseBlokSchemaProperty, hk, hk2, hf, parseBlokSchemaPropertyRest_tsType_none]

/-- Witness for the amended C6 at a single-select internal-stories field
filtered to the content type `article`. -/
theorem internalStories_rule_witness :
    parseBlokSchemaProperty demoOpts demoStoriesOption =
      { tsType := some "(ISbStoryData<Article> | string )" } :=
  (internalStories_rule demoOpts demoStoriesOption).1 ["article"] rfl rfl rfl

/-- Claim C7: when rendering a shared kind fails, `#generateType` returns
falsy (the field still receives its reference `tsType`, so the run
continues) and leaves both the registry and the output buffer untouched —
the kind's entry stays false, so a later field of the same kind in the
same run re-attempts the render (and succeeds if the compiler then
accepts). -/
theorem sharedRenderFailure_not_poisoned
    (tc : TypeCompiler) (opts : GenOptions) (k title e : String) (st : GenState)
    (hk : autogeneratedPropertyTypes.contains k = true)
    (hflag : flagGet st.hasTypeBeenGenerated k = false)
    (herr : tc.compileShared k title = Except.error e) :
    (generateType tc k title st).1 = none
    ∧ ((generateType tc k title st).2).hasTypeBeenGenerated = st.hasTypeBeenGenerated
    ∧ ((generateType tc k title st).2).typeDefsFileStrings = st.typeDefsFileStrings
    ∧ (∀ (groups : List (String × List String)) (names : List String)
        (el : ISbBlokPropertySchema), el.type = k →
        ((fieldSpec opts groups names el).tsType).isSome = true)
    ∧ (∀ (tc2 : TypeCompiler) (title2 ts : String),
        tc2.compileShared k title2 = Except.ok ts →
        (generateType tc2 k title2 ((generateType tc k title st).2)).1 = some ts) := by
  have hflagn : ¬flagGet st.hasTypeBeenGenerated k = true := by
    rw [hflag]
    exact Bool.noConfusion
  have hgen : generateType tc k title st =
      (none, { st with consoleLog := st.consoleLog ++
        [("Error generating type " ++ k ++ " with title " ++ title, e)] }) := by
    unfold generateType generateAutogeneratedType generateTypeString
    rw [if_neg hflagn, if_pos hk, herr]
  refine ⟨?_, ?_, ?_, ?_, ?_⟩
  · rw [hgen]
  · rw [hgen]
  · rw [hgen]
  · intro groups names el hel
    have hmem := List.elem_iff.mp hk
    fin_cases hmem <;> simp [fieldSpec, hel, autogeneratedPropertyTypes]
  · intro tc2 title2 ts hok
    rw [hgen]
    have hflag2 : ¬flagGet ({ st with consoleLog := st.consoleLog ++
        [("Error generating type " ++ k ++ " with title " ++ title, e)] } :
          GenState).hasTypeBeenGenerated k = true := hflagn
    unfold generateType generateAutogeneratedType generateTypeString
    rw [if_neg hflag2, if_pos hk, hok]

/-- Witness for C7: a failed `richtext` render on the fresh run state. -/
theorem sharedRenderFailure_witness :
    (generateType demoFailTC "richtext" "Richtext" initialState).1 = none :=
  (sharedRenderFailure_not_poisoned demoFailTC demoOpts "richtext" "Richtext" "unused"
    initialState (by decide) (flagGet_initialState "richtext") rfl).1

/-- Claim C8 (the code deviates): the name formatter treats a missing
prefix as empty (`?? ""`), but interpolates a missing suffix directly
into the template literal, so an unconfigured suffix becomes the literal
text `undefined` and `teaser` formats as `Teaserundefined` instead of the
`Teaser` the claim (missing suffix treated as empty) prescribes; with an
explicit empty suffix the formatter behaves as claimed. -/
theorem getBlokTypeName_missing_suffix_bug :
    getBlokTypeName { typeNamesPfx := none, typeNamesSuffix := none } "teaser" =
      "Teaserundefined"
    ∧ getBlokTypeName { typeNamesPfx := none, typeNamesSuffix := some "" } "teaser" = "Teaser"
    ∧ getBlokTypeName { typeNamesPfx := none, typeNamesSuffix := none } "teaser" ≠ "Teaser" := by
  refine ⟨by decide, by decide, by decide⟩

theorem foldl_required_general (l : List (String × ISbBlokPropertySchema)) :
    ∀ init : List String,
      l.foldl (fun acc kv => if kv.2.required then acc ++ [kv.1] else acc) init =
        init ++ (l.filter (fun kv => kv.2.required)).map Prod.fst := by
  induction l with
  | nil => intro init; simp
  | cons kv rest ih =>
    intro init
    by_cases h : kv.2.required = true
    · simp [List.filter_cons, h, ih, List.append_assoc]
    · simp [List.filter_cons, h, ih]

theorem requiredFields_characterization (c : ComponentJSONSchema) :
    requiredFields c =
      ["component", "_uid"] ++ (c.schema.filter (fun kv => kv.2.required)).map Prod.fst :=
  foldl_required_general c.schema ["component", "_uid"]

/-- Claim C9: a field of kind `custom` contributes no entry of its own —
the run state is untouched (no emission) and the component's field
mapping receives exactly the external resolver's fragment, which is
empty when no resolver is configured; the required-field computation is
a separate reduction over the raw schema (starting from
`["component", "_uid"]` and appending every required key) and is
unaffected by field resolution. -/
theorem customField_substitution
    (tc : TypeCompiler) (opts : GenOptions) (resolver : Option CustomTypeResolver)
    (groups : List (String × List String)) (names : List String)
    (parseObj : List (String × PropTypeSpec)) (st : GenState)
    (schemaKey : String) (el : ISbBlokPropertySchema)
    (h1 : el.type = "custom") (h2 : strStartsWith schemaKey "tab-" = false) :
    fieldStateUpdate tc opts schemaKey el st = st
    ∧ (∀ f, resolver = some f →
        fieldObjUpdate opts resolver groups names parseObj schemaKey el =
          (f schemaKey el).foldl (fun acc p => jsObjSet acc p.1 p.2) parseObj)
    ∧ fieldObjUpdate opts none groups names parseObj schemaKey el = parseObj
    ∧ (∀ c : ComponentJSONSchema, requiredFields c =
        ["component", "_uid"] ++ (c.schema.filter (fun kv => kv.2.required)).map Prod.fst) := by
  have hcust : (el.type == "custom") = true := by rw [h1]; rfl
  refine ⟨?_, ?_, ?_, fun c => requiredFields_characterization c⟩
  · unfold fieldStateUpdate
    rw [h2]
    rw [if_neg (by exact Bool.noConfusion), if_pos hcust]
  · intro f hf
    subst hf
    unfold fieldObjUpdate
    rw [h2]
    rw [if_neg (by exact Bool.noConfusion), if_pos hcust]
  · unfold fieldObjUpdate
    rw [h2]
    rw [if_neg (by exact Bool.noConfusion), if_pos hcust]
    rfl

/-- Witness for C9: a custom field under key `body` with no resolver
configured leaves both the run state and the field mapping unchanged. -/
theorem customField_substitution_witness :
    fieldStateUpdate demoFailTC demoOpts "body" demoCustomField initialState = initialState :=
  (customField_substitution demoFailTC demoOpts none [] [] [] initialState
    "body" demoCustomField rfl (by decide)).1

/-- Claim C10: in the composite specification submitted to the external
compiler, `_uid` maps to the plain string type and `component` to the
string type with enum exactly the component's own name — these two
assignments are performed after field resolution, so they overwrite
whatever a schema-declared field of either name resolved to. -/
theorem uid_and_component_overwritten
    (opts : GenOptions) (resolver : Option CustomTypeResolver)
    (groups : List (String × List String)) (names : List String)
    (c : ComponentJSONSchema) :
    jsObjGet (componentCompileInput opts resolver groups names c).properties "_uid" =
      some { type := some (JType.one "string") }
    ∧ jsObjGet (componentCompileInput opts resolver groups names c).properties "component" =
      some { type := some (JType.one "string"), enum := some [c.name] } := by
  constructor
  · show jsObjGet (jsObjSet (jsObjSet (typeMapperObj opts resolver groups names c.schema)
      "_uid" { type := some (JType.one "string") })
      "component" { type := some (JType.one "string"), enum := some [c.name] }) "_uid" =
      some { type := some (JType.one "string") }
    rw [jsObjGet_jsObjSet_ne _ _ _ _ (by decide), jsObjGet_jsObjSet_self]
  · show jsObjGet (jsObjSet (jsObjSet (typeMapperObj opts resolver groups names c.schema)
      "_uid" { type := some (JType.one "string") })
      "component" { type := some (JType.one "string"), enum := some [c.name] }) "component" =
      some { type := some (JType.one "string"), enum := some [c.name] }
    rw [jsObjGet_jsObjSet_self]

end Storyblok
